import Mathlib

/-!
Verification of the `logger` package (logger_stdout.go) against its
natural-language specification.

Shallow embedding notes:
* Go `LogType` is an `int`; we model it as `Nat`.  The seven constants
  DEBUG..FATAL are 0..6 exactly as in the source.
* Go's `interface{}` payload is modelled by the inductive `Payload`:
  the type switch in `DefaultLogFormatFunc` distinguishes `[]string`,
  `string`, and everything else (`Payload.other`).
* `time.Now().Format(layout)` is impure; the clock's rendering is passed
  in as a `String` parameter (`now`), and the padding block of
  `DefaultLogFormatFunc` is the function `padTime`.
* `fmt.Sprintf` is only ever called by this package on formats built
  solely from literal text and `%s` verbs, with exactly matching string
  arguments; `sprintf` models that fragment of its behaviour (scan the
  format, substitute each `%s` by the next value).
* Go strings are indexed by bytes; all suffix tests in the source look at
  the last two bytes.  In valid UTF-8 a byte below 0x80 is always a
  whole character, so "last two bytes are '-c'" holds iff "last two
  characters are '-c'"; the character-level model below therefore agrees
  with the byte-level source on every payload a Go caller can pass.
* Mutex-guarded blocks are modelled as atomic steps.  Where the source
  guards two interfering operations by two different mutexes (the append
  in `log` under `l.mu`, the buffer swap in `flush` under
  `l.cache.mutex`) the model splits the unprotected operation into its
  constituent steps, since real executions can interleave them.
-/

namespace LoggerPkg

/-- Go `LogType int`. -/
abbrev LogType := Nat

def DEBUG : LogType := 0
def INFO : LogType := 1
def NOTICE : LogType := 2
def WARN : LogType := 3
def ERROR : LogType := 4
def CRITICAL : LogType := 5
def FATAL : LogType := 6

/-- Go `syncStatus`: statusInit / statusDoing / statusDone. -/
inductive SyncStatus where
  | init
  | doing
  | done
deriving DecidableEq, Repr

/-- Go `dataColor` map: color suffix letter to terminal color code.
Lookup of any other key returns the zero value `""` (the source only
looks up keys it has already tested for). -/
def dataColor (c : Char) : String :=
  if c = 'r' then "41;97"
  else if c = 'g' then "42;97"
  else if c = 'y' then "43;97"
  else if c = 'b' then "44;97"
  else ""

/-- The base level names, before padding (`types` in the source). -/
def logTypes : List String :=
  ["DEBUG", "INFO", "NOTICE", "WARN", "ERROR", "CRITICAL", "FATAL"]

/-- `maxTypeLen` loop of the `logTypeStrings` initializer. -/
def maxTypeLen : Nat :=
  logTypes.foldl (fun m t => if t.length > m then t.length else m) 0

/-- The padding loop body of the `logTypeStrings` initializer:
`types[index] += strings.Repeat(" ", maxTypeLen-typeLen)` when shorter. -/
def padType (t : String) : String :=
  if t.length < maxTypeLen then
    t ++ String.mk (List.replicate (maxTypeLen - t.length) ' ')
  else t

/-- Go `logTypeStrings`: level names padded to the longest name's width. -/
def logTypeStrings : List String := logTypes.map padType

/-- Go `logTypesColors`. -/
def logTypesColors : List String :=
  ["45;97", "42;97", "43;97", "43;97", "41;97", "41;97", "41;97"]

/-- `logTypesColors[logType]` (Go panics out of range; the package only
indexes with 0..6, where `getD` agrees). -/
def getColor (lt : LogType) : String := logTypesColors.getD lt ""

/-- `logTypeStrings[logType]` (same indexing remark as `getColor`). -/
def getTypeString (lt : LogType) : String := logTypeStrings.getD lt ""

/-- The date layout of `DefaultLogFormatFunc`. -/
def layout : String := "2006/01/02 - 15:04:05.0000"

/-- The timestamp-padding block of `DefaultLogFormatFunc`:

```
if len(formatTime) != len(layout) {
    if len(formatTime) == 21 { formatTime += "." }
    formatTime += ".000"[4-(len(layout)-len(formatTime)) : 4]
}
```

`".000"[x:4]` is `".000".drop x` (ASCII, so byte = character).  For the
clock renderings in scope (lengths 21, 23, 24, 25, 26) the Go slice
index `4-(26-len)` is nonnegative, where truncated `Nat` subtraction
agrees with Go's `int` arithmetic. -/
def padTime (formatTime : String) : String :=
  if formatTime.length ≠ layout.length then
    let t1 := if formatTime.length = 21 then formatTime ++ "." else formatTime
    t1 ++ (".000".drop (4 - (layout.length - t1.length)))
  else formatTime

/-- The payload `interface{}` as seen by `DefaultLogFormatFunc`'s type
switch: a `[]string`, a `string`, or any other type. -/
inductive Payload where
  | fields (l : List String)
  | str (s : String)
  | other
deriving Repr

/-- One iteration of the field loop in `DefaultLogFormatFunc`: given a
field, the pair (format fragment written to the builder, value `tj`). -/
def fieldPiece (f : String) : String × String :=
  let cs := f.data
  if cs.length ≥ 2 then
    let c0 := cs.getD (cs.length - 2) ' '
    let c1 := cs.getD (cs.length - 1) ' '
    if c0 = '-' ∧ (c1 = 'g' ∨ c1 = 'b' ∨ c1 = 'r' ∨ c1 = 'y') then
      ("\x1b[" ++ dataColor c1 ++ "m%s\x1b[0m | ", String.mk (cs.take (cs.length - 2)))
    else ("%s | ", f)
  else ("%s | ", f)

/-- Go `DefaultLogFormatFunc(logType, i)`, with the impure clock
rendering passed in as `now`.  Returns (format, values, isLog) exactly
as the source builds them; note the source returns `true` as the third
component on every path. -/
def DefaultLogFormatFunc (logType : LogType) (now : String) (i : Payload) :
    String × List String × Bool :=
  let formatTime := padTime now
  match i with
  | .fields iSli =>
      let pieces := iSli.map fieldPiece
      let format := "[\x1b[" ++ getColor logType ++ "m%s\x1b[0m] %s | "
        ++ String.join (pieces.map Prod.fst) ++ "\n"
      let values := getTypeString logType :: formatTime :: pieces.map Prod.snd
      (format, values, true)
  | .str iStr =>
      ("[\x1b[" ++ getColor logType ++ "m%s\x1b[0m] %s | %s | \n",
       [getTypeString logType, formatTime, iStr], true)
  | .other => ("", [], true)

/-- `fmt.Sprintf` restricted to formats whose only verbs are `%s` with
string arguments (all this package ever produces): scan the format and
substitute each `%s` by the next value. -/
def sprintfS : List Char → List String → String
  | [], _ => ""
  | '%' :: 's' :: rest, v :: vs => v ++ sprintfS rest vs
  | c :: rest, vs => String.singleton c ++ sprintfS rest vs

def sprintf (format : String) (values : List String) : String :=
  sprintfS format.data values

/-- The formatted record `fmt.Sprintf(format, data...)` computed by
`log` from `DefaultLogFormatFunc`'s result. -/
def formatRecord (logType : LogType) (now : String) (i : Payload) : String :=
  let r := DefaultLogFormatFunc logType now i
  sprintf r.1 r.2.1

/-- The contribution of one field to the formatted record: what
`fmt.Sprintf` produces from this field's format fragment and value. -/
def fieldSegment (f : String) : String :=
  sprintf (fieldPiece f).1 [(fieldPiece f).2]

/-- Spec-side predicate (from the specification's words, for comparison
with the source-derived `fieldPiece`): the field "ends with a recognized
2-character color suffix" `-r`/`-g`/`-b`/`-y`. -/
def hasColorSuffix (f : String) : Bool :=
  match f.data.reverse with
  | c :: '-' :: _ => c = 'g' || c = 'b' || c = 'r' || c = 'y'
  | _ => false

/-- The logger state touched by `log` and `flush` (sequential model;
`sinkWrites` records the byte strings successfully written to `l.out`,
in order). -/
structure LoggerState where
  logLevel : LogType
  cacheUse : Bool
  cacheData : List String
  queue : List String
  status : SyncStatus
  sinkWrites : List String
deriving Repr, DecidableEq

/-- Go `log(logType, i)` as one atomic step (the source holds `l.mu`
for the whole body): level filter, format, then append to the cache
(cache mode) or push onto the queue (queue mode). -/
def logStep (s : LoggerState) (logType : LogType) (now : String) (i : Payload) :
    LoggerState :=
  if s.logLevel > logType then s
  else
    let r := DefaultLogFormatFunc logType now i
    if r.2.2 = false then s
    else if s.cacheUse then
      { s with cacheData := s.cacheData ++ [sprintf r.1 r.2.1] }
    else
      { s with queue := s.queue ++ [sprintf r.1 r.2.1] }

/-- Go `flush()` run to completion with a reliable sink: set status to
doing, swap the cache for an empty one, return if it was empty,
otherwise write the concatenation; status ends at done either way. -/
def flushRun (s : LoggerState) : LoggerState :=
  let cache := s.cacheData
  let s1 := { s with cacheData := [], status := SyncStatus.done }
  if cache.length = 0 then s1
  else { s1 with sinkWrites := s1.sinkWrites ++ [String.join cache] }

/-- The write-retry pattern shared by the queue drain worker in `Start`
and by `flush`: write `msg`; on error write the same `msg` once more; a
second error panics.  `firstOk`/`secondOk` are the sink's outcomes for
the two attempts; the result is (attempts issued to the sink, whether
the process aborted). -/
def writeWithRetry (firstOk secondOk : Bool) (msg : String) :
    List String × Bool :=
  if firstOk then ([msg], false)
  else if secondOk then ([msg, msg], false)
  else ([msg, msg], true)

/-- The drain worker's handling of one message popped from the queue
(`Start`, queue mode). -/
def drainOne (firstOk secondOk : Bool) (msg : String) : List String × Bool :=
  writeWithRetry firstOk secondOk msg

/-- The write portion of `flush`: nothing when the swapped-out cache is
empty, otherwise the retry pattern on the concatenated entries. -/
def flushWrite (cache : List String) (firstOk secondOk : Bool) :
    List String × Bool :=
  if cache.length = 0 then ([], false)
  else writeWithRetry firstOk secondOk (String.join cache)

/-- The state `NewLogger()` returns (the zero value of `syncStatus` is
`statusInit`). -/
def newLogger : LoggerState :=
  { logLevel := DEBUG, cacheUse := true, cacheData := [], queue := [],
    status := SyncStatus.init, sinkWrites := [] }

/-! ### Flush-scheduler interleaving model (Start, cache branch)

The ticker goroutine runs, per tick,

```
l.RLock()
if l.status != statusDoing { go l.flush() }
l.RUnlock()
```

and `flush` begins with `l.status = statusDoing` and ends (deferred)
with `l.status = statusDone`.  `go l.flush()` only *launches* the flush
goroutine; the Go scheduler may delay its first statement arbitrarily,
and the status write in `flush` takes no lock at all.  The model
therefore has three atomic events: a ticker tick (launches a pending
flush when status is not `doing`), the start of a launched flush
goroutine (its first statement, setting status to `doing`), and the end
of a flush (its deferred status write).  `inFlight` counts flushes
between their first and last statement. -/

structure SchedState where
  status : SyncStatus
  pending : Nat
  inFlight : Nat
deriving Repr, DecidableEq

inductive SchedEvent where
  | tick
  | startFlush
  | endFlush

def schedStep (s : SchedState) : SchedEvent → SchedState
  | .tick =>
      if s.status ≠ SyncStatus.doing then { s with pending := s.pending + 1 } else s
  | .startFlush =>
      if s.pending > 0 then
        { s with pending := s.pending - 1, status := SyncStatus.doing,
                 inFlight := s.inFlight + 1 }
      else s
  | .endFlush =>
      if s.inFlight > 0 then
        { s with inFlight := s.inFlight - 1, status := SyncStatus.done }
      else s

def schedRun (es : List SchedEvent) : SchedState :=
  es.foldl schedStep { status := SyncStatus.init, pending := 0, inFlight := 0 }

/-! ### Cache append / buffer swap interleaving model (log vs. flush)

`log` appends to `l.cache.data` while holding `l.mu`; `flush` captures
and truncates `l.cache.data` while holding `l.cache.mutex`.  These are
two different mutexes, so an append may interleave between the capture
(`cache := l.cache.data`) and the truncation
(`l.cache.data = l.cache.data[0:0]`).  The model makes the append one
atomic event (charitably) and splits the swap into its two statements;
`emitted` records every formatted string handed to the delivery core,
`writes` the sink writes.  `writeOut` is the tail of `flush`: skip when
the captured batch is empty, else write its concatenation. -/

structure BatchState where
  buffer : List String
  captured : Option (List String)
  emitted : List String
  writes : List String
deriving Repr, DecidableEq

inductive BatchEvent where
  | emit (m : String)
  | capture
  | truncate
  | writeOut

def batchStep (s : BatchState) : BatchEvent → BatchState
  | .emit m => { s with buffer := s.buffer ++ [m], emitted := s.emitted ++ [m] }
  | .capture => { s with captured := some s.buffer }
  | .truncate => { s with buffer := [] }
  | .writeOut =>
      match s.captured with
      | some c =>
          { s with captured := none,
                   writes := if c.length = 0 then s.writes else s.writes ++ [String.join c] }
      | none => s

def batchRun (es : List BatchEvent) : BatchState :=
  es.foldl batchStep { buffer := [], captured := none, emitted := [], writes := [] }

/-! ### Helper lemmas about the `sprintf` model -/

theorem mk_data (s : String) : String.mk s.data = s := by
  cases s
  rfl

theorem sprintfS_nil (vs : List String) : sprintfS [] vs = "" := rfl

theorem sprintfS_slot (rest : List Char) (v : String) (vs : List String) :
    sprintfS ('%' :: 's' :: rest) (v :: vs) = v ++ sprintfS rest vs := rfl

theorem sprintfS_char (c : Char) (h : c ≠ '%') (rest : List Char) (vs : List String) :
    sprintfS (c :: rest) vs = String.singleton c ++ sprintfS rest vs := by
  rw [sprintfS.eq_def]
  split <;> simp_all

theorem sprintfS_lit_aux (l : List Char) (h : '%' ∉ l) (rest : List Char)
    (vs : List String) :
    sprintfS (l ++ rest) vs = String.mk l ++ sprintfS rest vs := by
  induction l with
  | nil =>
      show sprintfS rest vs = "" ++ sprintfS rest vs
      rw [String.empty_append]
  | cons c l ih =>
      have hc : c ≠ '%' := fun hc => h (hc ▸ List.mem_cons_self c l)
      have hl : '%' ∉ l := fun hl => h (List.mem_cons_of_mem c hl)
      rw [List.cons_append, sprintfS_char c hc, ih hl]
      apply String.ext
      simp [String.data_append]

theorem sprintfS_lit (lit : String) (h : '%' ∉ lit.data) (rest : List Char)
    (vs : List String) :
    sprintfS (lit.data ++ rest) vs = lit ++ sprintfS rest vs := by
  rw [sprintfS_lit_aux lit.data h, mk_data]

theorem singleton_data (c : Char) : (String.singleton c).data = [c] := rfl

theorem foldl_append_shift (l : List String) (x y : String) :
    l.foldl (fun r s => r ++ s) (x ++ y) = x ++ l.foldl (fun r s => r ++ s) y := by
  induction l generalizing y with
  | nil => rfl
  | cons a l ih => simp only [List.foldl_cons, String.append_assoc, ih]

theorem join_cons (a : String) (l : List String) :
    String.join (a :: l) = a ++ String.join l := by
  show (a :: l).foldl (fun r s => r ++ s) "" = a ++ l.foldl (fun r s => r ++ s) ""
  rw [List.foldl_cons]
  have h : ("" : String) ++ a = a ++ "" := by
    rw [String.empty_append, String.append_empty]
  rw [h, foldl_append_shift]

theorem pctFree_getColor (lt : LogType) : '%' ∉ (getColor lt).data := by
  rcases lt with _ | _ | _ | _ | _ | _ | _ | n <;>
    simp [getColor, logTypesColors, List.getD]

theorem pctFree_dataColor (c : Char) : '%' ∉ (dataColor c).data := by
  unfold dataColor
  split_ifs <;> decide

/-- What `fmt.Sprintf(format, data...)` yields for a text payload:
the color-wrapped padded level name, the padded timestamp, and the text,
in the delimiter layout the format string hard-codes. -/
theorem formatRecord_str (lt : LogType) (now text : String) :
    formatRecord lt now (.str text)
      = "[\x1b[" ++ getColor lt ++ "m" ++ getTypeString lt ++ "\x1b[0m] "
          ++ padTime now ++ " | " ++ text ++ " | \n" := by
  show sprintfS ("[\x1b[" ++ getColor lt ++ "m%s\x1b[0m] %s | %s | \n").data
        [getTypeString lt, padTime now, text] = _
  simp only [String.data_append, List.append_assoc, List.cons_append, List.nil_append]
  simp only [sprintfS_slot, sprintfS_char, sprintfS_lit _ (pctFree_getColor lt),
    sprintfS_nil, ne_eq, reduceCtorEq, Char.reduceEq, not_false_eq_true]
  apply String.ext
  simp [String.data_append, singleton_data]

/-- The fragment written for one field consumes exactly that field's
value, contributing `fieldSegment f`. -/
theorem field_frag (f : String) (rest : List Char) (vs : List String) :
    sprintfS ((fieldPiece f).1.data ++ rest) ((fieldPiece f).2 :: vs)
      = fieldSegment f ++ sprintfS rest vs := by
  unfold fieldSegment fieldPiece sprintf
  dsimp only
  split_ifs with h1 h2 <;>
    · simp only [String.data_append, List.append_assoc, List.cons_append, List.nil_append]
      simp only [sprintfS_slot, sprintfS_char, sprintfS_lit _ (pctFree_dataColor _),
        sprintfS_nil, ne_eq, reduceCtorEq, Char.reduceEq, not_false_eq_true]
      apply String.ext
      simp [String.data_append, singleton_data]

/-- The field loop of `DefaultLogFormatFunc` composed with `sprintf`:
the joined fragments consume exactly the field values, yielding the
concatenation of the per-field segments. -/
theorem fields_loop (l : List String) (rest : List Char) (vs : List String) :
    sprintfS ((String.join ((l.map fieldPiece).map Prod.fst)).data ++ rest)
        (((l.map fieldPiece).map Prod.snd) ++ vs)
      = String.join (l.map fieldSegment) ++ sprintfS rest vs := by
  induction l with
  | nil =>
      show sprintfS rest vs = "" ++ sprintfS rest vs
      rw [String.empty_append]
  | cons f l ih =>
      simp only [List.map_cons, join_cons, List.cons_append]
      rw [String.data_append, List.append_assoc, field_frag, ih,
        String.append_assoc]

/-- What `fmt.Sprintf(format, data...)` yields for a sequence payload. -/
theorem formatRecord_fields (lt : LogType) (now : String) (l : List String) :
    formatRecord lt now (.fields l)
      = "[\x1b[" ++ getColor lt ++ "m" ++ getTypeString lt ++ "\x1b[0m] "
          ++ padTime now ++ " | " ++ String.join (l.map fieldSegment) ++ "\n" := by
  show sprintfS (("[\x1b[" ++ getColor lt ++ "m%s\x1b[0m] %s | "
        ++ String.join ((l.map fieldPiece).map Prod.fst) ++ "\n").data)
      (getTypeString lt :: padTime now :: (l.map fieldPiece).map Prod.snd) = _
  rw [show ((l.map fieldPiece).map Prod.snd)
      = ((l.map fieldPiece).map Prod.snd) ++ ([] : List String)
    from (List.append_nil _).symm]
  simp only [String.data_append, List.append_assoc, List.cons_append, List.nil_append]
  simp only [sprintfS_slot, sprintfS_char, sprintfS_lit _ (pctFree_getColor lt),
    sprintfS_nil, ne_eq, reduceCtorEq, Char.reduceEq, not_false_eq_true]
  rw [show ((String.join ((l.map fieldPiece).map Prod.fst)).data ++ ['\n'])
      = ((String.join ((l.map fieldPiece).map Prod.fst)).data ++ "\n".data) from rfl]
  rw [fields_loop]
  simp only [sprintfS_char, sprintfS_nil, ne_eq, reduceCtorEq, Char.reduceEq,
    not_false_eq_true]
  apply String.ext
  simp [String.data_append, singleton_data]

/-! ### Helper lemmas about field color suffixes -/

theorem sprintf_plain (v : String) : sprintf "%s | " [v] = v ++ " | " := by
  show sprintfS ("%s | " : String).data [v] = v ++ " | "
  simp only [List.append_assoc, List.cons_append, List.nil_append]
  simp only [sprintfS_slot, sprintfS_char, sprintfS_nil, ne_eq, reduceCtorEq,
    Char.reduceEq, not_false_eq_true]
  apply String.ext
  simp [String.data_append, singleton_data]

theorem sprintf_colored (code v : String) (hc : '%' ∉ code.data) :
    sprintf ("\x1b[" ++ code ++ "m%s\x1b[0m | ") [v]
      = "\x1b[" ++ code ++ "m" ++ v ++ "\x1b[0m | " := by
  show sprintfS ("\x1b[" ++ code ++ "m%s\x1b[0m | ").data [v] = _
  simp only [String.data_append, List.append_assoc, List.cons_append, List.nil_append]
  simp only [sprintfS_slot, sprintfS_char, sprintfS_lit _ hc, sprintfS_nil, ne_eq,
    reduceCtorEq, Char.reduceEq, not_false_eq_true]
  apply String.ext
  simp [String.data_append, singleton_data]

/-- Any list of length at least 2 splits into a prefix and its last two
elements (as the source's `f[ls-2:]` does). -/
theorem data_decomp (cs : List Char) (h : cs.length ≥ 2) :
    cs = cs.take (cs.length - 2)
      ++ [cs.getD (cs.length - 2) ' ', cs.getD (cs.length - 1) ' '] := by
  have h1 : cs.length - 2 < cs.length := by omega
  have h2 : cs.length - 1 < cs.length := by omega
  rw [List.getD_eq_getElem _ _ h1, List.getD_eq_getElem _ _ h2]
  conv_lhs => rw [← List.take_append_drop (cs.length - 2) cs]
  congr 1
  apply List.ext_getElem
  · simp
    omega
  · intro i hi hi2
    simp only [List.getElem_drop]
    have h3 : i < 2 := by
      simp at hi2
      omega
    interval_cases i <;> first
      | (simp; congr 1; omega)
      | simp

/-- The source's last-two-character test accepts exactly the strings the
spec describes: a recognized suffix is stripped and mapped to its
color. -/
theorem fieldPiece_suffix (g : String) (c : Char)
    (hc : c = 'g' ∨ c = 'b' ∨ c = 'r' ∨ c = 'y') :
    fieldPiece (g ++ String.mk ['-', c])
      = ("\x1b[" ++ dataColor c ++ "m%s\x1b[0m | ", g) := by
  have hdata : (g ++ String.mk ['-', c]).data = g.data ++ ['-', c] :=
    String.data_append g (String.mk ['-', c])
  unfold fieldPiece
  dsimp only
  rw [hdata]
  have hlen : (g.data ++ ['-', c]).length = g.data.length + 2 := by simp
  rw [hlen]
  rw [if_pos (by omega)]
  have h2 : g.data.length + 2 - 2 = g.data.length := rfl
  have h1 : g.data.length + 2 - 1 = g.data.length + 1 := rfl
  rw [h2, h1]
  have e0 : (g.data ++ ['-', c]).getD g.data.length ' ' = '-' := by
    rw [List.getD_append_right _ _ _ _ (le_refl _)]
    simp
  have e1 : (g.data ++ ['-', c]).getD (g.data.length + 1) ' ' = c := by
    rw [List.getD_append_right _ _ _ _ (by omega)]
    simp
  rw [e0, e1, if_pos ⟨rfl, hc⟩, List.take_left, mk_data]

/-- A field without a recognized color suffix gets the plain fragment. -/
theorem fieldPiece_plain (f : String) (hf : hasColorSuffix f = false) :
    fieldPiece f = ("%s | ", f) := by
  unfold fieldPiece
  dsimp only
  split_ifs with h2 hcond
  · exfalso
    have hd := data_decomp f.data h2
    unfold hasColorSuffix at hf
    rw [hcond.1] at hd
    conv at hf => rw [hd]
    simp only [List.reverse_append, List.reverse_cons, List.reverse_nil,
      List.nil_append, List.cons_append] at hf
    rcases hcond.2 with h | h | h | h <;> rw [h] at hf <;> simp at hf
  · rfl
  · rfl

/-! ### Claims -/

/-- C1 counterexample: for a payload that is neither a string nor a
[]string, `DefaultLogFormatFunc` returns an empty template but
shouldEmit = `true` (the source returns `true` on every path), and the
emission at an accepted level is therefore not vetoed: `log` appends the
empty formatted string to the cache buffer instead of appending
nothing. -/
theorem c1_counterexample :
    (DefaultLogFormatFunc DEBUG "2006/01/02 - 15:04:05.1234" Payload.other).2.2 = true
      ∧ (logStep newLogger DEBUG "2006/01/02 - 15:04:05.1234" Payload.other).cacheData
          = [""] := by
  decide

/-- C1 (amended): for every payload of unrecognized type, the default
format pipeline returns an empty template, an empty value list and
shouldEmit = true; an emission at an accepted level appends the empty
formatted string to the cache buffer (cache mode) or pushes it onto the
queue (queue mode), leaving everything else, in particular the sink,
unchanged. -/
theorem c1_unrecognized_payload (lt : LogType) (now : String) (s : LoggerState)
    (h : s.logLevel ≤ lt) :
    DefaultLogFormatFunc lt now Payload.other = ("", [], true)
      ∧ (s.cacheUse = true →
          logStep s lt now Payload.other = { s with cacheData := s.cacheData ++ [""] })
      ∧ (s.cacheUse = false →
          logStep s lt now Payload.other = { s with queue := s.queue ++ [""] }) := by
  refine ⟨rfl, ?_, ?_⟩ <;> intro hc <;>
    · unfold logStep
      have hng : ¬ (s.logLevel > lt) := not_lt.mpr h
      rw [if_neg hng]
      simp [DefaultLogFormatFunc, hc, sprintf, sprintfS]

/-- Witness for C1 (amended) at a concrete state and payload. -/
theorem c1_witness :
    DefaultLogFormatFunc DEBUG "t" Payload.other = ("", [], true)
      ∧ logStep newLogger DEBUG "t" Payload.other
          = { newLogger with cacheData := [""] } := by
  have h := c1_unrecognized_payload DEBUG "t" newLogger (by decide)
  exact ⟨h.1, h.2.1 rfl⟩

/-- C2: with `log` and `flush` modelled as the atomic steps their mutex
regions make them, an emission is delivered iff its level is at least
the configured threshold: below the threshold the state (cache, queue,
sink) is untouched; at or above it the formatted record is appended to
the cache buffer and the next flush writes it to the sink (cache mode),
or it is pushed onto the queue (queue mode). -/
theorem c2_level_filter (s : LoggerState) (lt : LogType) (now text : String) :
    (lt < s.logLevel → logStep s lt now (.str text) = s)
    ∧ (s.logLevel ≤ lt → s.cacheUse = true →
        logStep s lt now (.str text)
          = { s with cacheData := s.cacheData ++ [formatRecord lt now (.str text)] }
        ∧ (flushRun (logStep s lt now (.str text))).sinkWrites
            = s.sinkWrites
              ++ [String.join (s.cacheData ++ [formatRecord lt now (.str text)])])
    ∧ (s.logLevel ≤ lt → s.cacheUse = false →
        logStep s lt now (.str text)
          = { s with queue := s.queue ++ [formatRecord lt now (.str text)] }
        ∧ (logStep s lt now (.str text)).sinkWrites = s.sinkWrites) := by
  refine ⟨?_, ?_, ?_⟩
  · intro h
    unfold logStep
    rw [if_pos h]
  · intro h hc
    have hng : ¬ (s.logLevel > lt) := not_lt.mpr h
    have h1 : logStep s lt now (.str text)
        = { s with cacheData := s.cacheData ++ [formatRecord lt now (.str text)] } := by
      unfold logStep formatRecord
      rw [if_neg hng]
      simp [DefaultLogFormatFunc, hc]
    refine ⟨h1, ?_⟩
    rw [h1]
    unfold flushRun
    dsimp only
    have hne : ¬ ((s.cacheData ++ [formatRecord lt now (.str text)]).length = 0) := by
      simp
    rw [if_neg hne]
  · intro h hc
    have hng : ¬ (s.logLevel > lt) := not_lt.mpr h
    have h1 : logStep s lt now (.str text)
        = { s with queue := s.queue ++ [formatRecord lt now (.str text)] } := by
      unfold logStep formatRecord
      rw [if_neg hng]
      simp [DefaultLogFormatFunc, hc]
    exact ⟨h1, by rw [h1]⟩

/-- Witness for C2 at threshold WARN: an INFO emission changes nothing,
an ERROR emission is cached and then flushed to the sink (cache mode) or
queued (queue mode). -/
theorem c2_witness :
    logStep { newLogger with logLevel := WARN } INFO "t" (.str "m")
        = { newLogger with logLevel := WARN }
    ∧ (flushRun (logStep { newLogger with logLevel := WARN } ERROR "t" (.str "m"))).sinkWrites
        = [String.join [formatRecord ERROR "t" (.str "m")]]
    ∧ logStep { newLogger with logLevel := WARN, cacheUse := false } ERROR "t" (.str "m")
        = { newLogger with
            logLevel := WARN
            cacheUse := false
            queue := [formatRecord ERROR "t" (.str "m")] } :=
  ⟨(c2_level_filter { newLogger with logLevel := WARN } INFO "t" "m").1 (by decide),
   ((c2_level_filter { newLogger with logLevel := WARN } ERROR "t" "m").2.1
      (by decide) rfl).2,
   ((c2_level_filter { newLogger with logLevel := WARN, cacheUse := false }
      ERROR "t" "m").2.2 (by decide) rfl).1⟩

/-- C3: both the queue drain worker and the cache flush use the same
write-retry pattern: a successful first write is not retried; a failed
first write is retried exactly once with the same bytes; a failed retry
aborts the process.  The flush applies it to the concatenation of the
swapped-out batch. -/
theorem c3_retry_once (msg : String) (o1 o2 : Bool) (c : String) (cs : List String) :
    writeWithRetry true o2 msg = ([msg], false)
    ∧ writeWithRetry false o2 msg = ([msg, msg], !o2)
    ∧ drainOne o1 o2 msg = writeWithRetry o1 o2 msg
    ∧ flushWrite (c :: cs) o1 o2 = writeWithRetry o1 o2 (String.join (c :: cs)) := by
  refine ⟨rfl, ?_, rfl, ?_⟩
  · cases o2 <;> rfl
  · unfold flushWrite
    have hne : ¬ ((c :: cs).length = 0) := by simp
    rw [if_neg hne]

/-- C4 is violated by the source: a scheduler tick only checks
`l.status` and then launches the flush goroutine asynchronously, while
`flush` sets `statusDoing` only once it starts running.  Two ticks that
both fire before the first launched flush begins both pass the check,
and after both goroutines start, two flushes are in flight at once. -/
theorem c4_two_flushes_in_flight :
    (schedRun [SchedEvent.tick, SchedEvent.tick, SchedEvent.startFlush,
        SchedEvent.startFlush]).inFlight = 2 := by
  decide

/-- C5 is violated by the source: `log` appends under `l.mu` while
`flush` swaps the buffer under `l.cache.mutex`, so an append can land
between flush's capture of the buffer and its truncation.  In that
interleaving the appended entry is truncated away without ever having
been captured: the sink receives only "a\n" while "a\n" and "b\n" were
emitted, and the lost entry is in no buffer from which a later flush
could recover it. -/
theorem c5_lost_entry :
    (batchRun [BatchEvent.emit "a\n", BatchEvent.capture, BatchEvent.emit "b\n",
        BatchEvent.truncate, BatchEvent.writeOut, BatchEvent.capture,
        BatchEvent.truncate, BatchEvent.writeOut]).writes = ["a\n"]
    ∧ (batchRun [BatchEvent.emit "a\n", BatchEvent.capture, BatchEvent.emit "b\n",
        BatchEvent.truncate, BatchEvent.writeOut, BatchEvent.capture,
        BatchEvent.truncate, BatchEvent.writeOut]).emitted = ["a\n", "b\n"]
    ∧ (batchRun [BatchEvent.emit "a\n", BatchEvent.capture, BatchEvent.emit "b\n",
        BatchEvent.truncate, BatchEvent.writeOut, BatchEvent.capture,
        BatchEvent.truncate, BatchEvent.writeOut]).buffer = []
    ∧ (batchRun [BatchEvent.emit "a\n", BatchEvent.capture, BatchEvent.emit "b\n",
        BatchEvent.truncate, BatchEvent.writeOut, BatchEvent.capture,
        BatchEvent.truncate, BatchEvent.writeOut]).captured = none
    ∧ String.join (batchRun [BatchEvent.emit "a\n", BatchEvent.capture,
        BatchEvent.emit "b\n", BatchEvent.truncate, BatchEvent.writeOut,
        BatchEvent.capture, BatchEvent.truncate, BatchEvent.writeOut]).writes
      ≠ String.join (batchRun [BatchEvent.emit "a\n", BatchEvent.capture,
        BatchEvent.emit "b\n", BatchEvent.truncate, BatchEvent.writeOut,
        BatchEvent.capture, BatchEvent.truncate, BatchEvent.writeOut]).emitted := by
  decide

/-- C6 counterexample: flushing an empty buffer twice in a row produces
zero sink writes, not exactly one — both flushes are no-ops. -/
theorem c6_counterexample :
    (flushRun (flushRun newLogger)).sinkWrites = []
    ∧ ¬ (flushRun (flushRun newLogger)).sinkWrites.length = 1 := by
  decide

/-- C6 (amended): a flush that swaps out an empty buffer is a no-op that
performs no sink write; a second flush immediately after a first (no
intervening emission) is always such a no-op, so two flushes in a row
produce at most one sink write in total — exactly one when the buffer
was nonempty before the first flush, and zero when it was empty. -/
theorem c6_empty_flush_noop (s : LoggerState) :
    (s.cacheData = [] → flushRun s = { s with status := SyncStatus.done })
    ∧ (flushRun (flushRun s)).sinkWrites = (flushRun s).sinkWrites
    ∧ (s.cacheData ≠ [] →
        (flushRun (flushRun s)).sinkWrites
          = s.sinkWrites ++ [String.join s.cacheData]) := by
  refine ⟨?_, ?_, ?_⟩
  · intro h
    unfold flushRun
    have hz : s.cacheData.length = 0 := by rw [h]; rfl
    rw [if_pos hz, h]
  · unfold flushRun
    dsimp only
    split_ifs <;> simp_all
  · intro h
    unfold flushRun
    dsimp only
    split_ifs <;> simp_all

/-- Witness for C6 (amended): concrete empty and one-entry buffers. -/
theorem c6_witness :
    flushRun newLogger = { newLogger with status := SyncStatus.done }
    ∧ (flushRun (flushRun { newLogger with cacheData := ["x\n"] })).sinkWrites
        = [String.join ["x\n"]] :=
  ⟨(c6_empty_flush_noop newLogger).1 rfl,
   (c6_empty_flush_noop { newLogger with cacheData := ["x\n"] }).2.2 (by decide)⟩

/-- C7: a text payload formats as `[<LEVEL>] <timestamp> | <text> | \\n`
where the level's display name is wrapped in that level's terminal color
code and padded with spaces to the width of the longest name
("CRITICAL", 8 characters). -/
theorem c7_text_format (lt : LogType) (h : lt < 7) (now text : String) :
    formatRecord lt now (.str text)
      = "[\x1b[" ++ getColor lt ++ "m" ++ getTypeString lt ++ "\x1b[0m] "
          ++ padTime now ++ " | " ++ text ++ " | \n"
    ∧ (getTypeString lt).length = "CRITICAL".length
    ∧ maxTypeLen = "CRITICAL".length
    ∧ getTypeString lt
        = logTypes.getD lt ""
          ++ String.mk (List.replicate (maxTypeLen - (logTypes.getD lt "").length) ' ') := by
  refine ⟨formatRecord_str lt now text, ?_, by decide, ?_⟩ <;>
    interval_cases lt <;> decide

/-- Witness for C7: the spec's own scenario at level INFO. -/
theorem c7_witness :
    formatRecord INFO "2006/01/02 - 15:04:05.1234" (.str "200 | ok! | 1ms | GET /x")
      = "[\x1b[42;97mINFO    \x1b[0m] 2006/01/02 - 15:04:05.1234 | 200 | ok! | 1ms | GET /x | \n" :=
  (c7_text_format INFO (by decide) "2006/01/02 - 15:04:05.1234"
    "200 | ok! | 1ms | GET /x").1.trans (by decide)

/-- C8 is violated by the source: renderings that drop 1 to 3 trailing
zeros are zero-padded back to exactly 4 fractional digits, but the
rendering that drops the fraction entirely (length 21) gains a second
dot — the code appends "." and then ".000"[0:4], yielding
"…05..000" instead of "…05.0000": not a single decimal point followed
by 4 digits. -/
theorem c8_timestamp_padding :
    padTime "2006/01/02 - 15:04:05.9" = "2006/01/02 - 15:04:05.9000"
    ∧ padTime "2006/01/02 - 15:04:05.98" = "2006/01/02 - 15:04:05.9800"
    ∧ padTime "2006/01/02 - 15:04:05.987" = "2006/01/02 - 15:04:05.9870"
    ∧ padTime "2006/01/02 - 15:04:05.9876" = "2006/01/02 - 15:04:05.9876"
    ∧ padTime "2006/01/02 - 15:04:05" = "2006/01/02 - 15:04:05..000"
    ∧ padTime "2006/01/02 - 15:04:05" ≠ "2006/01/02 - 15:04:05.0000" := by
  decide

/-- C9: the record for a sequence payload is the header followed by the
per-field segments; a field ending in a recognized 2-character color
suffix (here written as `g ++ "-c"`) is stripped to `g` and wrapped in
the mapped color code, while a field without such a suffix renders
unmodified; in particular "GET-y" renders as "GET" in the y color and
"GET" renders unmodified. -/
theorem c9_color_suffix (lt : LogType) (now : String) (l : List String)
    (g : String) (c : Char) (hc : c = 'g' ∨ c = 'b' ∨ c = 'r' ∨ c = 'y')
    (f : String) (hf : hasColorSuffix f = false) :
    formatRecord lt now (.fields l)
      = "[\x1b[" ++ getColor lt ++ "m" ++ getTypeString lt ++ "\x1b[0m] "
          ++ padTime now ++ " | " ++ String.join (l.map fieldSegment) ++ "\n"
    ∧ fieldSegment (g ++ String.mk ['-', c])
        = "\x1b[" ++ dataColor c ++ "m" ++ g ++ "\x1b[0m | "
    ∧ fieldSegment f = f ++ " | "
    ∧ fieldSegment "GET-y" = "\x1b[43;97mGET\x1b[0m | "
    ∧ fieldSegment "GET" = "GET | " := by
  refine ⟨formatRecord_fields lt now l, ?_, ?_, by decide, by decide⟩
  · show sprintf (fieldPiece (g ++ String.mk ['-', c])).1
        [(fieldPiece (g ++ String.mk ['-', c])).2] = _
    rw [fieldPiece_suffix g c hc]
    exact sprintf_colored (dataColor c) g (pctFree_dataColor c)
  · show sprintf (fieldPiece f).1 [(fieldPiece f).2] = _
    rw [fieldPiece_plain f hf]
    exact sprintf_plain f

/-- Witness for C9: "GET-y" strips to "GET" in the y color; "GET" is
unmodified. -/
theorem c9_witness :
    ('y' = 'g' ∨ 'y' = 'b' ∨ 'y' = 'r' ∨ 'y' = 'y')
    ∧ hasColorSuffix "GET" = false
    ∧ fieldSegment ("GET" ++ String.mk ['-', 'y'])
        = "\x1b[" ++ dataColor 'y' ++ "m" ++ "GET" ++ "\x1b[0m | "
    ∧ fieldSegment "GET" = "GET | " := by
  have h := c9_color_suffix DEBUG "t" [] "GET" 'y' (by decide) "GET" (by decide)
  exact ⟨by decide, by decide, h.2.1, h.2.2.1⟩

/-- C10: a field that is exactly a recognized 2-character suffix strips
to the empty string, rendered as an empty color-wrapped segment whose
delimiter slot still appears; every field shorter than 2 characters
renders unmodified. -/
theorem c10_suffix_only_field (f : String) (h : f.data.length < 2) :
    fieldSegment "-r" = "\x1b[" ++ dataColor 'r' ++ "m" ++ "" ++ "\x1b[0m | "
    ∧ fieldSegment f = f ++ " | " := by
  constructor
  · decide
  · show sprintf (fieldPiece f).1 [(fieldPiece f).2] = _
    have hp : fieldPiece f = ("%s | ", f) := by
      unfold fieldPiece
      dsimp only
      have hng : ¬ (f.data.length ≥ 2) := by omega
      rw [if_neg hng]
    rw [hp]
    exact sprintf_plain f

/-- Witness for C10 at the one-character field "a". -/
theorem c10_witness :
    ("a" : String).data.length < 2
    ∧ fieldSegment "-r" = "\x1b[" ++ dataColor 'r' ++ "m" ++ "" ++ "\x1b[0m | "
    ∧ fieldSegment "a" = "a | " := by
  have h := c10_suffix_only_field "a" (by decide)
  exact ⟨by decide, h.1, h.2⟩

end LoggerPkg
